import Mathlib

/-!
Verification of the parsing and data-modelling core of the ffprobe3
wrapper (file ffprobe.py).  The Python source is shallowly embedded:
the per-line loops become structural recursions over lists of lines,
the dynamic attribute dictionary becomes an ordered association list,
exceptions become an explicit error type threaded through Except, and
the two regular expressions of the source are embedded as executable
matchers with leftmost, greedy-with-backtracking semantics.

Correspondence of names used by the specification:
StreamRecord is FFStream, ContainerRecord is FFContainer, the
MalformedField error kind is the FFProbeError exception of the source
(PyErr.ffprobeError here), and the full record list of the ProbeResult
is the streams list returned by parseStreams.
-/

/-- Python exceptions that the embedded code can raise.  FFProbeError is
imported by the source from the packages exceptions module; it carries
its message string.  valueError models ValueError (failed int or float
conversion, failed tuple unpacking), typeError models TypeError (int or
float applied to None) and attributeError models AttributeError (method
call on None, as in the container scan when the bit-rate regex finds no
match). -/
inductive PyErr where
  | valueError
  | typeError
  | attributeError
  | ffprobeError (msg : String)
deriving DecidableEq

/-- Values stored in the dynamic attribute dictionary of a record: raw
fields are strings, the derived framerate is an integer or None. -/
inductive PyVal where
  | str (s : String)
  | int (n : Int)
  | pynone
deriving DecidableEq

/-- The attribute dictionary of a Python object, as an ordered
association list, insertion ordered like a Python dict. -/
abbrev Dict := List (String × PyVal)

/-- Membership test for a key, as Python key-in-dict. -/
def dictHasKey : Dict → String → Bool
  | [], _ => false
  | kv :: rest, k => kv.1 = k || dictHasKey rest k

/-- Lookup, as Python dict.get(k) returning None when absent. -/
def dictGet : Dict → String → Option PyVal
  | [], _ => none
  | kv :: rest, k => if kv.1 = k then some kv.2 else dictGet rest k

/-- Python dict update with a single key: an existing key keeps its
position and gets the new value, a fresh key is appended at the end. -/
def dictUpdate (d : Dict) (k : String) (v : PyVal) : Dict :=
  if dictHasKey d k then d.map (fun kv => if kv.1 = k then (k, v) else kv)
  else d ++ [(k, v)]

/-- Whitespace characters removed by Python str.strip(). -/
def isPyWhitespace (c : Char) : Bool :=
  c == ' ' || c == '\t' || c == '\n' || c == '\r' || c == '\x0b' || c == '\x0c'

/-- Python str.strip(): remove leading and trailing whitespace. -/
def pyStripChars (cs : List Char) : List Char :=
  ((cs.dropWhile isPyWhitespace).reverse.dropWhile isPyWhitespace).reverse

/-- Python str.split(sep) with an explicit one-character separator:
split at every occurrence, keeping empty pieces; the result is always
nonempty. -/
def pySplit (sep : Char) : List Char → List (List Char)
  | [] => [[]]
  | c :: cs =>
    if c = sep then [] :: pySplit sep cs
    else
      match pySplit sep cs with
      | [] => [[c]]
      | p :: ps => (c :: p) :: ps

/-- Numeric value of a nonempty all-digit character list, None
otherwise.  Helper for the embedding of Python int(). -/
def digitsToNat (cs : List Char) : Option Nat :=
  if cs = [] then none
  else
    cs.foldl
      (fun acc c =>
        match acc with
        | some a => if c.isDigit then some (a * 10 + (c.toNat - 48)) else none
        | none => none)
      (some 0)

/-- Python int(str): strip whitespace, optional sign, nonempty digit
run.  (Underscore digit grouping accepted by CPython is not modelled;
no claim depends on it.) -/
def pyIntOfChars (cs0 : List Char) : Option Int :=
  match pyStripChars cs0 with
  | '+' :: rest => (digitsToNat rest).map Int.ofNat
  | '-' :: rest => (digitsToNat rest).map (fun n => -(Int.ofNat n))
  | cs => (digitsToNat cs).map Int.ofNat

def pyInt (s : String) : Option Int := pyIntOfChars s.data

/-- Sign prefix of a numeric literal. -/
def parseSign : List Char → (Int × List Char)
  | '+' :: r => (1, r)
  | '-' :: r => (-1, r)
  | r => (1, r)

/-- Leading digit run of a character list, with the remainder. -/
def takeDigits (cs : List Char) : (List Char × List Char) :=
  (cs.takeWhile Char.isDigit, cs.dropWhile Char.isDigit)

/-- Signed nonempty digit run, used for a float exponent. -/
def parseSignedNat (cs : List Char) : Option (Int × List Char) :=
  let sg := parseSign cs
  let ds := takeDigits sg.2
  match digitsToNat ds.1 with
  | some n => some (sg.1 * Int.ofNat n, ds.2)
  | none => none

/-- Optional exponent part of a float literal. -/
def parseExpPart : List Char → Option (Int × List Char)
  | 'e' :: r => parseSignedNat r
  | 'E' :: r => parseSignedNat r
  | r => some (0, r)

/-- Python float(str) on decimal literals, as an exact rational: strip,
optional sign, digits with optional fraction and exponent.  (The
special literals inf, infinity and nan accepted by CPython are not
modelled; no claim depends on them, and float arithmetic is not used by
the embedded code beyond this parse.) -/
def pyFloatOfChars (cs0 : List Char) : Option Rat :=
  let cs := pyStripChars cs0
  let sg := parseSign cs
  let ipr := takeDigits sg.2
  let fpr :=
    match ipr.2 with
    | '.' :: rr => takeDigits rr
    | r => (([] : List Char), r)
  if ipr.1 = [] && fpr.1 = [] then none
  else
    match parseExpPart fpr.2 with
    | none => none
    | some (ex, r4) =>
      if r4 = [] then
        match digitsToNat (ipr.1 ++ fpr.1) with
        | some m =>
          some ((((sg.1 * Int.ofNat m : Int) : Rat) / ((10 : Rat) ^ fpr.1.length)) * ((10 : Rat) ^ ex))
        | none => none
      else none

def pyFloat (s : String) : Option Rat := pyFloatOfChars s.data

/-- Python round() to an integer: round half to even, on the exact
rational value. -/
def pyRound (q : Rat) : Int :=
  let f := q.floor
  let r := q - (f : Rat)
  if r < 1 / 2 then f
  else if 1 / 2 < r then f + 1
  else if f % 2 = 0 then f else f + 1

/-- Python map(int, parts) consumed by reduce: every part must parse as
an integer, else ValueError (modelled as None since the caller catches
it). -/
def mapIntParse : List (List Char) → Option (List Int)
  | [] => some []
  | p :: ps =>
    match pyIntOfChars p, mapIntParse ps with
    | some n, some ns => some (n :: ns)
    | _, _ => none

/-- functools.reduce(operator.truediv, ints) starting from the first
element, with ZeroDivisionError modelled as None. -/
def reduceTruediv (x : Rat) : List Int → Option Rat
  | [] => some x
  | y :: ys => if y = 0 then none else reduceTruediv (x / (y : Rat)) ys

/-- The framerate derivation of FFStream, line 114 of the source:
round(reduce(truediv, map(int, avg.split('/')))) with ValueError and
ZeroDivisionError both yielding None. -/
def deriveFramerate (s : String) : Option Int :=
  match mapIntParse (pySplit '/' s.data) with
  | none => none
  | some [] => none
  | some (n :: ns) =>
    match reduceTruediv ((n : Int) : Rat) ns with
    | none => none
    | some q => some (pyRound q)

/-- A stream record: the attribute dictionary of one FFStream object. -/
structure FFStream where
  dict : Dict
deriving DecidableEq

/-- The avg_frame_rate string read by the framerate derivation:
dict.get with default empty string.  Inside FFStream construction the
stored value is always a string (only the framerate key ever holds a
non-string), so the non-string fallback is unreachable there. -/
def avgStrOf (d : Dict) : String :=
  match dictGet d "avg_frame_rate" with
  | some (PyVal.str s) => s
  | _ => ""

/-- The per-line framerate update of FFStream construction, lines
113 to 121 of the source: store the derived integer, or None on
failure, under the framerate key. -/
def updateFramerate (d : Dict) : Dict :=
  match deriveFramerate (avgStrOf d) with
  | some n => dictUpdate d "framerate" (PyVal.int n)
  | none => dictUpdate d "framerate" PyVal.pynone

/-- One iteration of the FFStream constructor loop, lines 110 to 121:
strip the line, split on every equals sign, unpack the first two pieces
as key and value discarding the rest (ValueError when there are fewer
than two pieces), update the dictionary, then recompute framerate. -/
def initStep (d : Dict) (line : String) : Except PyErr Dict :=
  match pySplit '=' (pyStripChars line.data) with
  | [] => Except.error PyErr.valueError
  | [_] => Except.error PyErr.valueError
  | k :: v :: _ =>
    Except.ok (updateFramerate (dictUpdate d (String.mk k) (PyVal.str (String.mk v))))

/-- The FFStream constructor loop over the buffered data lines. -/
def initLoop : Dict → List String → Except PyErr Dict
  | d, [] => Except.ok d
  | d, l :: ls =>
    match initStep d l with
    | Except.ok d2 => initLoop d2 ls
    | Except.error e => Except.error e

/-- FFStream.__init__ over the buffered lines of one block. -/
def FFStream.init (dataLines : List String) : Except PyErr FFStream :=
  match initLoop [] dataLines with
  | Except.ok d => Except.ok ⟨d⟩
  | Except.error e => Except.error e

def FFStream.getOpt (s : FFStream) (k : String) : Option PyVal :=
  dictGet s.dict k

/-- dict.get(k, '') as used by the typed accessors. -/
def FFStream.getDefaultEmpty (s : FFStream) (k : String) : PyVal :=
  match s.getOpt k with
  | some v => v
  | none => PyVal.str ""

/-- Python int(x) on a dictionary value: a string is parsed (ValueError
on failure), an int is returned as is, None raises TypeError. -/
def pyIntOfPyVal : PyVal → Except PyErr Int
  | PyVal.str v =>
    match pyInt v with
    | some n => Except.ok n
    | none => Except.error PyErr.valueError
  | PyVal.int n => Except.ok n
  | PyVal.pynone => Except.error PyErr.typeError

/-- Python float(x) on a dictionary value. -/
def pyFloatOfPyVal : PyVal → Except PyErr Rat
  | PyVal.str v =>
    match pyFloat v with
    | some q => Except.ok q
    | none => Except.error PyErr.valueError
  | PyVal.int n => Except.ok ((n : Int) : Rat)
  | PyVal.pynone => Except.error PyErr.typeError

def FFStream.is_audio (s : FFStream) : Bool :=
  decide (s.getOpt "codec_type" = some (PyVal.str "audio"))

def FFStream.is_video (s : FFStream) : Bool :=
  decide (s.getOpt "codec_type" = some (PyVal.str "video"))

def FFStream.is_subtitle (s : FFStream) : Bool :=
  decide (s.getOpt "codec_type" = some (PyVal.str "subtitle"))

def FFStream.is_attachment (s : FFStream) : Bool :=
  decide (s.getOpt "codec_type" = some (PyVal.str "attachment"))

/-- FFStream.frames, lines 190 to 202: int of the raw nb_frames field
for video or audio streams, catching ValueError into FFProbeError;
constant zero for every other kind. -/
def FFStream.frames (s : FFStream) : Except PyErr Int :=
  if s.is_video || s.is_audio then
    match pyIntOfPyVal (s.getDefaultEmpty "nb_frames") with
    | Except.ok n => Except.ok n
    | Except.error PyErr.valueError =>
      Except.error (PyErr.ffprobeError "None integer frame count")
    | Except.error e => Except.error e
  else Except.ok 0

/-- FFStream.duration_seconds, lines 204 to 217: float of the raw
duration field for video or audio streams, catching ValueError into
FFProbeError; constant zero for every other kind. -/
def FFStream.duration_seconds (s : FFStream) : Except PyErr Rat :=
  if s.is_video || s.is_audio then
    match pyFloatOfPyVal (s.getDefaultEmpty "duration") with
    | Except.ok q => Except.ok q
    | Except.error PyErr.valueError =>
      Except.error (PyErr.ffprobeError "None numeric duration")
    | Except.error e => Except.error e
  else Except.ok 0

/-- FFStream.bit_rate, lines 243 to 250: int of the raw bit_rate field
with default empty string, catching ValueError into FFProbeError.  No
stream-kind check and no zero default. -/
def FFStream.bit_rate (s : FFStream) : Except PyErr Int :=
  match pyIntOfPyVal (s.getDefaultEmpty "bit_rate") with
  | Except.ok n => Except.ok n
  | Except.error PyErr.valueError =>
    Except.error (PyErr.ffprobeError "None integer bit_rate")
  | Except.error e => Except.error e

/-- Prefix test on character lists. -/
def isPrefixOfChars : List Char → List Char → Bool
  | [], _ => true
  | _ :: _, [] => false
  | a :: as, b :: bs => a = b && isPrefixOfChars as bs

/-- Contiguous substring test on character lists. -/
def isSubstr (needle : List Char) : List Char → Bool
  | [] => isPrefixOfChars needle []
  | c :: t => isPrefixOfChars needle (c :: t) || isSubstr needle t

/-- Python substring containment, sub in line. -/
def lineContains (sub : String) (line : String) : Bool :=
  isSubstr sub.data line.data

/-- The opening block marker of the wire format. -/
def strOpen : String := "[STREAM]"

/-- The closing block marker of the wire format. -/
def strClose : String := "[/STREAM]"

/-- The mutable state of the block-scanning loops of FFProbe.__init__:
the stream flag, the data_lines buffer and the streams list.  The same
state is threaded through the stdout loop and then the stderr loop, as
in the source where all three variables live in one function scope. -/
structure ScanState where
  stream : Bool
  dataLines : List String
  streams : List FFStream
deriving DecidableEq

/-- One iteration of the block-scanning loops, lines 42 to 61 of the
source: a line containing the opening marker raises the flag and resets
the buffer; a line containing the closing marker while the flag is up
builds an FFStream from the buffer and appends it; any other line is
buffered while the flag is up and ignored otherwise. -/
def scanStep (st : ScanState) (line : String) : Except PyErr ScanState :=
  if lineContains strOpen line then Except.ok ⟨true, [], st.streams⟩
  else if lineContains strClose line && st.stream then
    match FFStream.init st.dataLines with
    | Except.ok s => Except.ok ⟨false, st.dataLines, st.streams ++ [s]⟩
    | Except.error e => Except.error e
  else if st.stream then Except.ok ⟨st.stream, st.dataLines ++ [line], st.streams⟩
  else Except.ok st

/-- One block-scanning loop over a list of lines. -/
def scanBlock : ScanState → List String → Except PyErr ScanState
  | st, [] => Except.ok st
  | st, l :: ls =>
    match scanStep st l with
    | Except.ok st2 => scanBlock st2 ls
    | Except.error e => Except.error e

/-- Lines 34 to 61 of the source: scan stdout, then scan stderr with
the state carried over, and return the accumulated streams list.  The
final partial buffer, if any, is discarded. -/
def parseStreams (stdoutLines stderrLines : List String) : Except PyErr (List FFStream) :=
  match scanBlock ⟨false, [], []⟩ stdoutLines with
  | Except.error e => Except.error e
  | Except.ok st1 =>
    match scanBlock st1 stderrLines with
    | Except.error e => Except.error e
    | Except.ok st2 => Except.ok st2.streams

/-- The blocks that the stderr loop appends, written as stated by the
specification: the suffix of the final streams list past the entries
already present when the stderr loop starts. -/
def stderrBlocks (stdoutLines stderrLines : List String) : Except PyErr (List FFStream) :=
  match scanBlock ⟨false, [], []⟩ stdoutLines with
  | Except.error e => Except.error e
  | Except.ok st1 =>
    match scanBlock st1 stderrLines with
    | Except.error e => Except.error e
    | Except.ok st2 => Except.ok (st2.streams.drop st1.streams.length)

/-- The four per-kind stream collections of FFProbe. -/
structure StreamPartitions where
  video : List FFStream
  audio : List FFStream
  subtitle : List FFStream
  attachment : List FFStream
deriving DecidableEq

/-- One iteration of the classification loop, lines 63 to 71 of the
source: audio is tested first, then video, subtitle, attachment; a
stream matching none of the four predicates is appended nowhere. -/
def classifyStep (p : StreamPartitions) (s : FFStream) : StreamPartitions :=
  if s.is_audio then ⟨p.video, p.audio ++ [s], p.subtitle, p.attachment⟩
  else if s.is_video then ⟨p.video ++ [s], p.audio, p.subtitle, p.attachment⟩
  else if s.is_subtitle then ⟨p.video, p.audio, p.subtitle ++ [s], p.attachment⟩
  else if s.is_attachment then ⟨p.video, p.audio, p.subtitle, p.attachment ++ [s]⟩
  else p

def classifyLoop : StreamPartitions → List FFStream → StreamPartitions
  | p, [] => p
  | p, s :: rest => classifyLoop (classifyStep p s) rest

/-- The full classification of a streams list, starting from four empty
collections. -/
def classifyAll (streams : List FFStream) : StreamPartitions :=
  classifyLoop ⟨[], [], [], []⟩ streams

/-- Characters of the malformed class [0=9] in the duration regex of
the source, line 24: it matches only the three characters 0, = and 9,
not the digit range. -/
def inDurClass (c : Char) : Bool :=
  c == '0' || c == '=' || c == '9'

/-- Continuation of the duration regex after its first class character:
accept a colon now, or one more class character and continue.  This is
the exists-a-split semantics of the backtracking regex engine for the
pattern fragment of one-or-more class characters followed by a colon. -/
def durClassRunColon : List Char → Bool
  | [] => false
  | c :: rest => c = ':' || (inDurClass c && durClassRunColon rest)

/-- Exact prefix removal for a regex literal. -/
def dropLiteral : List Char → List Char → Option (List Char)
  | [], cs => some cs
  | _ :: _, [] => none
  | a :: as, c :: cs => if a = c then dropLiteral as cs else none

/-- Anchored match of the stream_re pattern of line 24 of the source,
Duration colon space then one or more characters of the class [0=9]
then a colon. -/
def streamReAt (cs : List Char) : Bool :=
  match dropLiteral "Duration: ".data cs with
  | none => false
  | some rest =>
    match rest with
    | [] => false
    | c :: t => inDurClass c && durClassRunColon t

/-- re.search with stream_re: does any position of the line start a
match. -/
def streamReSearch : List Char → Bool
  | [] => false
  | c :: t => streamReAt (c :: t) || streamReSearch t

def isLowerAZ (c : Char) : Bool := 'a' ≤ c && c ≤ 'z'

/-- Attempted match of the tail of bit_re with exactly k digits: the
pattern of line 23 of the source is a space, one to eight digits, a
space, one lowercase letter, then the letter b.  Returns the matched
group. -/
def bitTail (k : Nat) (rest : List Char) : Option (List Char) :=
  let ds := rest.take k
  if ds.length = k && ds.all Char.isDigit then
    match rest.drop k with
    | ' ' :: l :: 'b' :: _ =>
      if isLowerAZ l then some (' ' :: (ds ++ ' ' :: l :: ['b'])) else none
    | _ => none
  else none

/-- Greedy backtracking over the digit count, from k down to one. -/
def bitReAtAux : Nat → List Char → Option (List Char)
  | 0, _ => none
  | Nat.succ k, rest =>
    match bitTail (Nat.succ k) rest with
    | some g => some g
    | none => bitReAtAux k rest

/-- Anchored match of bit_re at a position: a space then the greedy
digit run. -/
def bitReAt : List Char → Option (List Char)
  | ' ' :: rest => bitReAtAux 8 rest
  | _ => none

/-- re.search with bit_re: leftmost match, returning the group. -/
def bitReSearch : List Char → Option (List Char)
  | [] => none
  | c :: t =>
    match bitReAt (c :: t) with
    | some g => some g
    | none => bitReSearch t

/-- A container record: the attribute dictionary of one FFContainer
object. -/
structure FFContainer where
  dict : Dict
deriving DecidableEq

/-- One iteration of the FFContainer constructor loop, lines 256 to
258: strip and split on every equals sign and unpack exactly two
pieces, ValueError otherwise. -/
def containerInitStep (d : Dict) (line : String) : Except PyErr Dict :=
  match pySplit '=' (pyStripChars line.data) with
  | [k, v] => Except.ok (dictUpdate d (String.mk k) (PyVal.str (String.mk v)))
  | _ => Except.error PyErr.valueError

def containerInitLoop : Dict → List String → Except PyErr Dict
  | d, [] => Except.ok d
  | d, l :: ls =>
    match containerInitStep d l with
    | Except.ok d2 => containerInitLoop d2 ls
    | Except.error e => Except.error e

/-- FFContainer.__init__. -/
def FFContainer.init (dataLines : List String) : Except PyErr FFContainer :=
  match containerInitLoop [] dataLines with
  | Except.ok d => Except.ok ⟨d⟩
  | Except.error e => Except.error e

/-- FFContainer.container_bitrate, lines 260 to 267. -/
def FFContainer.container_bitrate (c : FFContainer) : Except PyErr Int :=
  match pyIntOfPyVal
      (match dictGet c.dict "container_bitrate" with
       | some v => v
       | none => PyVal.str "") with
  | Except.ok n => Except.ok n
  | Except.error PyErr.valueError =>
    Except.error (PyErr.ffprobeError "None integer container_bitrate")
  | Except.error e => Except.error e

/-- One iteration of the container bit-rate scan, lines 75 to 79 of the
source: when stream_re matches the line, call group() on the result of
the bit_re search (AttributeError when that search returned None),
strip every non-digit character, and append a new FFContainer built
from a single synthetic container_bitrate line. -/
def containerStep (acc : List FFContainer) (line : String) : Except PyErr (List FFContainer) :=
  if streamReSearch line.data then
    match bitReSearch line.data with
    | none => Except.error PyErr.attributeError
    | some g =>
      match FFContainer.init ["container_bitrate=" ++ String.mk (g.filter Char.isDigit)] with
      | Except.ok c => Except.ok (acc ++ [c])
      | Except.error e => Except.error e
  else Except.ok acc

def containerLoop : List FFContainer → List String → Except PyErr (List FFContainer)
  | acc, [] => Except.ok acc
  | acc, l :: ls =>
    match containerStep acc l with
    | Except.ok acc2 => containerLoop acc2 ls
    | Except.error e => Except.error e

/-- The container bit-rate recovery scan over the diagnostic lines of
the flag-less invocation. -/
def containerScan (mkverr : List String) : Except PyErr (List FFContainer) :=
  containerLoop [] mkverr

/-- Serialization of a dictionary value back to text. -/
def pyValText : PyVal → String
  | PyVal.str s => s
  | PyVal.int n => toString n
  | PyVal.pynone => "None"

/-- The raw part of a record dictionary: every entry except the derived
framerate entry.  Written to the specification of the round-trip
property, which serializes the raw field mapping independent of derived
fields. -/
def filterRaw : Dict → Dict
  | [] => []
  | kv :: rest => if kv.1 = "framerate" then filterRaw rest else kv :: filterRaw rest

/-- Re-serialization of the raw field mapping of a record as name=value
lines, in dictionary order. -/
def rawLines (s : FFStream) : List String :=
  (filterRaw s.dict).map (fun kv => kv.1 ++ "=" ++ pyValText kv.2)

/-- The number of the four partition lists that contain a given record,
used to state the exactly-one-partition invariant. -/
def membershipCount (s : FFStream) (p : StreamPartitions) : Nat :=
  (if s ∈ p.video then 1 else 0) + (if s ∈ p.audio then 1 else 0) +
    (if s ∈ p.subtitle then 1 else 0) + (if s ∈ p.attachment then 1 else 0)

instance exceptDecEq (ε α : Type) [DecidableEq ε] [DecidableEq α] : DecidableEq (Except ε α) :=
  fun a b =>
    match a, b with
    | Except.ok x, Except.ok y =>
      if h : x = y then isTrue (by rw [h]) else isFalse (fun hc => h (Except.ok.inj hc))
    | Except.error x, Except.error y =>
      if h : x = y then isTrue (by rw [h]) else isFalse (fun hc => h (Except.error.inj hc))
    | Except.ok _, Except.error _ => isFalse (fun hc => Except.noConfusion hc)
    | Except.error _, Except.ok _ => isFalse (fun hc => Except.noConfusion hc)

theorem strDataAppend (s t : String) : (s ++ t).data = s.data ++ t.data := by
  cases s
  cases t
  rfl

theorem pySplit_ne_nil (sep : Char) (cs : List Char) : pySplit sep cs ≠ [] := by
  cases cs with
  | nil => simp [pySplit]
  | cons c t =>
    simp only [pySplit]
    by_cases h : c = sep
    · simp [h]
    · simp only [if_neg h]
      cases hps : pySplit sep t with
      | nil => simp
      | cons p ps => simp

theorem pySplit_no_sep (sep : Char) (cs : List Char) (h : sep ∉ cs) :
    pySplit sep cs = [cs] := by
  induction cs with
  | nil => rfl
  | cons c t ih =>
    have hc : ¬ c = sep := fun hh => h (by rw [hh]; exact List.mem_cons_self sep t)
    have ht : sep ∉ t := fun hh => h (List.mem_cons_of_mem c hh)
    simp only [pySplit, if_neg hc, ih ht]

theorem pySplit_append (sep : Char) (a b : List Char) (h : sep ∉ a) :
    pySplit sep (a ++ sep :: b) = a :: pySplit sep b := by
  induction a with
  | nil => simp [pySplit]
  | cons c t ih =>
    have hc : ¬ c = sep := fun hh => h (by rw [hh]; exact List.mem_cons_self sep t)
    have ht : sep ∉ t := fun hh => h (List.mem_cons_of_mem c hh)
    simp only [List.cons_append, pySplit, if_neg hc, List.append_eq]
    rw [ih ht]

theorem pySplit_singleton_no_sep (sep : Char) (cs x : List Char)
    (h : pySplit sep cs = [x]) : sep ∉ cs := by
  induction cs generalizing x with
  | nil => simp
  | cons c t ih =>
    simp only [pySplit] at h
    by_cases hc : c = sep
    · rw [if_pos hc] at h
      cases hps : pySplit sep t with
      | nil => exact absurd hps (pySplit_ne_nil sep t)
      | cons p ps => rw [hps] at h; simp at h
    · rw [if_neg hc] at h
      cases hps : pySplit sep t with
      | nil => exact absurd hps (pySplit_ne_nil sep t)
      | cons p ps =>
        rw [hps] at h
        have hx : (c :: p) = x ∧ ps = [] := by
          constructor
          · exact (List.cons.inj h).1
          · exact (List.cons.inj h).2
        have ht : sep ∉ t := by
          apply ih p
          rw [hps, hx.2]
        intro hmem
        rcases List.mem_cons.1 hmem with h1 | h1
        · exact hc h1.symm
        · exact ht h1

theorem dictGet_map_replace_ne (d : Dict) (k k2 : String) (v : PyVal) (h : k2 ≠ k) :
    dictGet (d.map (fun kv => if kv.1 = k then (k, v) else kv)) k2 = dictGet d k2 := by
  induction d with
  | nil => rfl
  | cons kv rest ih =>
    by_cases hk : kv.1 = k
    · simp only [List.map_cons, if_pos hk, dictGet]
      rw [if_neg (fun hh => h hh.symm), if_neg (fun hh => h (hk ▸ hh).symm), ih]
    · simp only [List.map_cons, if_neg hk, dictGet, ih]

theorem dictGet_append_single_ne (d : Dict) (k k2 : String) (v : PyVal) (h : k2 ≠ k) :
    dictGet (d ++ [(k, v)]) k2 = dictGet d k2 := by
  induction d with
  | nil => simp only [List.nil_append, dictGet, if_neg (fun hh : k = k2 => h hh.symm)]
  | cons kv rest ih =>
    simp only [List.cons_append, dictGet, List.append_eq]
    by_cases hk : kv.1 = k2
    · rw [if_pos hk, if_pos hk]
    · rw [if_neg hk, if_neg hk, ih]

theorem dictGet_update_ne (d : Dict) (k k2 : String) (v : PyVal) (h : k2 ≠ k) :
    dictGet (dictUpdate d k v) k2 = dictGet d k2 := by
  unfold dictUpdate
  by_cases hh : dictHasKey d k
  · rw [if_pos hh, dictGet_map_replace_ne d k k2 v h]
  · rw [if_neg hh, dictGet_append_single_ne d k k2 v h]

theorem dictHasKey_map_replace (d : Dict) (k k2 : String) (v : PyVal) :
    dictHasKey (d.map (fun kv => if kv.1 = k then (k, v) else kv)) k2 = dictHasKey d k2 := by
  induction d with
  | nil => rfl
  | cons kv rest ih =>
    by_cases hk : kv.1 = k
    · simp [dictHasKey, hk, ih]
    · simp [dictHasKey, hk, ih]

theorem dictHasKey_append (d1 d2 : Dict) (k : String) :
    dictHasKey (d1 ++ d2) k = (dictHasKey d1 k || dictHasKey d2 k) := by
  induction d1 with
  | nil => simp [dictHasKey]
  | cons kv rest ih => simp [dictHasKey, ih, Bool.or_assoc]

theorem dictHasKey_update_ne (d : Dict) (k k2 : String) (v : PyVal) (h : k2 ≠ k) :
    dictHasKey (dictUpdate d k v) k2 = dictHasKey d k2 := by
  unfold dictUpdate
  by_cases hh : dictHasKey d k
  · rw [if_pos hh, dictHasKey_map_replace d k k2 v]
  · rw [if_neg hh, dictHasKey_append]
    simp only [dictHasKey, Bool.or_false]
    rw [decide_eq_false (fun hc : k = k2 => h hc.symm)]
    simp

theorem filterRaw_append (d1 d2 : Dict) :
    filterRaw (d1 ++ d2) = filterRaw d1 ++ filterRaw d2 := by
  induction d1 with
  | nil => rfl
  | cons kv rest ih =>
    simp only [List.cons_append, filterRaw, List.append_eq]
    by_cases hk : kv.1 = "framerate"
    · rw [if_pos hk, if_pos hk, ih]
    · rw [if_neg hk, if_neg hk, ih, List.cons_append]

theorem filterRaw_map_replace_fr (d : Dict) (v : PyVal) :
    filterRaw (d.map (fun kv => if kv.1 = "framerate" then ("framerate", v) else kv)) =
      filterRaw d := by
  induction d with
  | nil => rfl
  | cons kv rest ih =>
    by_cases hk : kv.1 = "framerate"
    · simp [filterRaw, hk, ih]
    · simp [filterRaw, hk, ih]

theorem filterRaw_update_fr (d : Dict) (v : PyVal) :
    filterRaw (dictUpdate d "framerate" v) = filterRaw d := by
  unfold dictUpdate
  by_cases hh : dictHasKey d "framerate"
  · rw [if_pos hh, filterRaw_map_replace_fr]
  · rw [if_neg hh, filterRaw_append]
    simp [filterRaw]

theorem filterRaw_updateFramerate (d : Dict) :
    filterRaw (updateFramerate d) = filterRaw d := by
  unfold updateFramerate
  cases deriveFramerate (avgStrOf d) with
  | none => exact filterRaw_update_fr d PyVal.pynone
  | some n => exact filterRaw_update_fr d (PyVal.int n)

theorem dictGet_updateFramerate_ne (d : Dict) (k : String) (h : k ≠ "framerate") :
    dictGet (updateFramerate d) k = dictGet d k := by
  unfold updateFramerate
  cases deriveFramerate (avgStrOf d) with
  | none => exact dictGet_update_ne d "framerate" k PyVal.pynone h
  | some n => exact dictGet_update_ne d "framerate" k (PyVal.int n) h

theorem dictHasKey_updateFramerate_ne (d : Dict) (k : String) (h : k ≠ "framerate") :
    dictHasKey (updateFramerate d) k = dictHasKey d k := by
  unfold updateFramerate
  cases deriveFramerate (avgStrOf d) with
  | none => exact dictHasKey_update_ne d "framerate" k PyVal.pynone h
  | some n => exact dictHasKey_update_ne d "framerate" k (PyVal.int n) h

theorem strMkData (s : String) : String.mk s.data = s := by
  cases s
  rfl

theorem eqCharData : "=".data = ['='] := rfl

theorem lineData (n v : String) : (n ++ "=" ++ v).data = n.data ++ '=' :: v.data := by
  simp [strDataAppend, eqCharData, List.append_assoc]

theorem initStep_good (d : Dict) (l : String) (n v : String) (tail : List (List Char))
    (hsplit : pySplit '=' (pyStripChars l.data) = n.data :: v.data :: tail) :
    initStep d l = Except.ok (updateFramerate (dictUpdate d n (PyVal.str v))) := by
  simp [initStep, hsplit, strMkData]

theorem dictGet_update_nil (n : String) (v : PyVal) :
    dictGet (dictUpdate [] n v) n = some v := by
  simp [dictUpdate, dictHasKey, dictGet]

theorem initLoop_roundtrip (fields : List (String × String)) (d : Dict)
    (hfresh : ∀ kv ∈ fields, dictHasKey d kv.1 = false)
    (hnodup : (fields.map Prod.fst).Nodup)
    (hgood : ∀ kv ∈ fields, ('=' ∉ kv.1.data) ∧ ('=' ∉ kv.2.data) ∧ kv.1 ≠ "framerate" ∧
      pyStripChars (kv.1 ++ "=" ++ kv.2).data = (kv.1 ++ "=" ++ kv.2).data) :
    ∃ d2, initLoop d (fields.map (fun kv => kv.1 ++ "=" ++ kv.2)) = Except.ok d2 ∧
      filterRaw d2 = filterRaw d ++ fields.map (fun kv => (kv.1, PyVal.str kv.2)) := by
  induction fields generalizing d with
  | nil => exact ⟨d, rfl, by simp⟩
  | cons kv rest ih =>
    obtain ⟨h1, h2, hnf, hstrip⟩ := hgood kv (List.mem_cons_self kv rest)
    have hsplit : pySplit '=' (pyStripChars (kv.1 ++ "=" ++ kv.2).data) =
        kv.1.data :: kv.2.data :: [] := by
      rw [hstrip, lineData, pySplit_append '=' kv.1.data kv.2.data h1,
        pySplit_no_sep '=' kv.2.data h2]
    have hstep := initStep_good d (kv.1 ++ "=" ++ kv.2) kv.1 kv.2 [] hsplit
    have hheadfresh : dictHasKey d kv.1 = false :=
      hfresh kv (List.mem_cons_self kv rest)
    have hheadnotin : kv.1 ∉ rest.map Prod.fst := (List.nodup_cons.1 hnodup).1
    have hrestnodup : (rest.map Prod.fst).Nodup := (List.nodup_cons.1 hnodup).2
    have hfresh2 : ∀ kv2 ∈ rest,
        dictHasKey (updateFramerate (dictUpdate d kv.1 (PyVal.str kv.2))) kv2.1 = false := by
      intro kv2 hmem
      have hnf2 : kv2.1 ≠ "framerate" := (hgood kv2 (List.mem_cons_of_mem kv hmem)).2.2.1
      have hne : kv2.1 ≠ kv.1 := by
        intro hc
        exact hheadnotin (hc ▸ List.mem_map_of_mem Prod.fst hmem)
      rw [dictHasKey_updateFramerate_ne _ _ hnf2, dictHasKey_update_ne d kv.1 kv2.1 _ hne]
      exact hfresh kv2 (List.mem_cons_of_mem kv hmem)
    obtain ⟨d2, hloop, hraw⟩ :=
      ih (updateFramerate (dictUpdate d kv.1 (PyVal.str kv.2))) hfresh2 hrestnodup
        (fun kv2 hmem => hgood kv2 (List.mem_cons_of_mem kv hmem))
    refine ⟨d2, ?_, ?_⟩
    · simp only [List.map_cons, initLoop, hstep, hloop]
    · rw [hraw, filterRaw_updateFramerate]
      have hupd : dictUpdate d kv.1 (PyVal.str kv.2) = d ++ [(kv.1, PyVal.str kv.2)] := by
        simp [dictUpdate, hheadfresh]
      rw [hupd, filterRaw_append]
      have hsingle : filterRaw [(kv.1, PyVal.str kv.2)] = [(kv.1, PyVal.str kv.2)] := by
        simp [filterRaw, hnf]
      rw [hsingle, List.map_cons, List.append_assoc, List.singleton_append]

/-- Claim C1, counterexample.  The claim states that a body line is
split at the first equals sign only, so that for a line a=b=c the
stored value for name a is the whole remainder b=c, and that decoding
then re-serializing the raw field mapping reproduces the original
lines.  In the code the line is split at every equals sign and only the
first two pieces are kept: the stored value is b, and re-serialization
yields a=b, not the original line. -/
theorem c1_counterexample :
    FFStream.init ["a=b=c"] =
        Except.ok (FFStream.mk [("a", PyVal.str "b"), ("framerate", PyVal.pynone)]) ∧
      PyVal.str "b" ≠ PyVal.str "b=c" ∧
      Except.map rawLines (FFStream.init ["a=b=c"]) = Except.ok ["a=b"] ∧
      "a=b" ≠ "a=b=c" := by
  refine ⟨rfl, by decide, rfl, by decide⟩

/-- Claim C1, amended.  The field decoder splits each stripped body
line at every equals sign and keeps the first two pieces as name and
value, discarding the rest: for a line a=b=c the stored value for a is
b, the piece between the first and the second equals sign.
Consequently decoding then re-serializing the raw field mapping (the
dictionary without the derived framerate entry) reproduces the original
name=value lines exactly when every value contains no equals sign (for
distinct, stripped, non-framerate names). -/
theorem c1_amended :
    (∀ n v1 v2 : String, '=' ∉ n.data → '=' ∉ v1.data → n ≠ "framerate" →
      pyStripChars (n ++ "=" ++ v1 ++ "=" ++ v2).data = (n ++ "=" ++ v1 ++ "=" ++ v2).data →
      Except.map (fun s => FFStream.getOpt s n) (FFStream.init [n ++ "=" ++ v1 ++ "=" ++ v2]) =
        Except.ok (some (PyVal.str v1)))
  ∧ (∀ fields : List (String × String),
      (fields.map Prod.fst).Nodup →
      (∀ kv ∈ fields, ('=' ∉ kv.1.data) ∧ ('=' ∉ kv.2.data) ∧ kv.1 ≠ "framerate" ∧
        pyStripChars (kv.1 ++ "=" ++ kv.2).data = (kv.1 ++ "=" ++ kv.2).data) →
      Except.map rawLines (FFStream.init (fields.map (fun kv => kv.1 ++ "=" ++ kv.2))) =
        Except.ok (fields.map (fun kv => kv.1 ++ "=" ++ kv.2))) := by
  constructor
  · intro n v1 v2 h1 h2 hnf hstrip
    have hdata : (n ++ "=" ++ v1 ++ "=" ++ v2).data =
        n.data ++ '=' :: (v1.data ++ '=' :: v2.data) := by
      simp [strDataAppend, eqCharData]
    have hsplitA : pySplit '=' (pyStripChars (n ++ "=" ++ v1 ++ "=" ++ v2).data) =
        n.data :: v1.data :: pySplit '=' v2.data := by
      rw [hstrip, hdata, pySplit_append '=' n.data _ h1,
        pySplit_append '=' v1.data v2.data h2]
    have hstep := initStep_good [] (n ++ "=" ++ v1 ++ "=" ++ v2) n v1
      (pySplit '=' v2.data) hsplitA
    have hinit : FFStream.init [n ++ "=" ++ v1 ++ "=" ++ v2] =
        Except.ok ⟨updateFramerate (dictUpdate [] n (PyVal.str v1))⟩ := by
      simp [FFStream.init, initLoop, hstep]
    rw [hinit]
    simp only [Except.map]
    rw [show FFStream.getOpt ⟨updateFramerate (dictUpdate [] n (PyVal.str v1))⟩ n =
      dictGet (updateFramerate (dictUpdate [] n (PyVal.str v1))) n from rfl]
    rw [dictGet_updateFramerate_ne _ _ hnf, dictGet_update_nil]
  · intro fields hnodup hgood
    obtain ⟨d2, hloop, hraw⟩ :=
      initLoop_roundtrip fields [] (fun kv _ => rfl) hnodup hgood
    have hinit : FFStream.init (fields.map (fun kv => kv.1 ++ "=" ++ kv.2)) =
        Except.ok ⟨d2⟩ := by
      simp [FFStream.init, hloop]
    rw [hinit]
    simp only [Except.map, rawLines]
    rw [hraw]
    simp [List.map_map, Function.comp, pyValText, filterRaw]

/-- Witness for the amended claim C1 at concrete inputs. -/
theorem c1_amended_witness :
    (Except.map (fun s => FFStream.getOpt s "a")
        (FFStream.init ["a" ++ "=" ++ "b" ++ "=" ++ "c"]) = Except.ok (some (PyVal.str "b"))) ∧
      Except.map rawLines
          (FFStream.init ([("k1", "v1"), ("k2", "v2")].map (fun kv => kv.1 ++ "=" ++ kv.2))) =
        Except.ok ([("k1", "v1"), ("k2", "v2")].map (fun kv => kv.1 ++ "=" ++ kv.2)) :=
  And.intro
    (c1_amended.1 "a" "b" "c" (by decide) (by decide) (by decide) (by decide))
    (c1_amended.2 [("k1", "v1"), ("k2", "v2")] (by decide) (by decide))

theorem initStep_ok_of_mem (d : Dict) (l : String) (h : '=' ∈ pyStripChars l.data) :
    ∃ d2, initStep d l = Except.ok d2 := by
  cases hsplit : pySplit '=' (pyStripChars l.data) with
  | nil => exact absurd hsplit (pySplit_ne_nil '=' _)
  | cons k rest =>
    cases rest with
    | nil => exact absurd h (pySplit_singleton_no_sep '=' _ k hsplit)
    | cons v rest2 =>
      exact ⟨updateFramerate (dictUpdate d (String.mk k) (PyVal.str (String.mk v))),
        by simp [initStep, hsplit]⟩

theorem initLoop_error_of_bad (body : List String) :
    ∀ d : Dict, (∃ l ∈ body, '=' ∉ pyStripChars l.data) →
      initLoop d body = Except.error PyErr.valueError := by
  induction body with
  | nil => intro d h; simp at h
  | cons l rest ih =>
    intro d h
    by_cases hl : '=' ∈ pyStripChars l.data
    · have hrest : ∃ l2 ∈ rest, '=' ∉ pyStripChars l2.data := by
        obtain ⟨l0, hmem, hbad⟩ := h
        rcases List.mem_cons.1 hmem with h0 | h0
        · exact absurd hl (h0 ▸ hbad)
        · exact ⟨l0, h0, hbad⟩
      obtain ⟨d2, hstep⟩ := initStep_ok_of_mem d l hl
      simp only [initLoop, hstep]
      exact ih d2 hrest
    · have hsplit : pySplit '=' (pyStripChars l.data) = [pyStripChars l.data] :=
        pySplit_no_sep '=' _ hl
      simp [initLoop, initStep, hsplit]

theorem FFStream_init_error_of_bad (body : List String)
    (h : ∃ l ∈ body, '=' ∉ pyStripChars l.data) :
    FFStream.init body = Except.error PyErr.valueError := by
  simp [FFStream.init, initLoop_error_of_bad body [] h]

theorem scanBlock_append (xs ys : List String) : ∀ st : ScanState,
    scanBlock st (xs ++ ys) =
      match scanBlock st xs with
      | Except.ok st2 => scanBlock st2 ys
      | Except.error e => Except.error e := by
  induction xs with
  | nil => intro st; rfl
  | cons l rest ih =>
    intro st
    simp only [List.cons_append, scanBlock]
    cases scanStep st l with
    | ok st2 => exact ih st2
    | error e => rfl

theorem scanBlock_buffer (body : List String) :
    ∀ buf : List String, ∀ s : List FFStream,
      (∀ l ∈ body, lineContains strOpen l = false ∧ lineContains strClose l = false) →
      scanBlock ⟨true, buf, s⟩ body = Except.ok ⟨true, buf ++ body, s⟩ := by
  induction body with
  | nil => intro buf s _; simp [scanBlock]
  | cons l rest ih =>
    intro buf s h
    obtain ⟨hop, hcl⟩ := h l (List.mem_cons_self l rest)
    have hstep : scanStep ⟨true, buf, s⟩ l = Except.ok ⟨true, buf ++ [l], s⟩ := by
      simp [scanStep, hop, hcl]
    simp only [scanBlock, hstep]
    rw [ih (buf ++ [l]) s (fun l2 hmem => h l2 (List.mem_cons_of_mem l hmem))]
    simp

/-- Claim C2, counterexample.  The claim states that a block containing
a body line with no equals sign is merely skipped with a diagnostic and
that the analysis continues, producing records for all other
well-formed blocks.  In the code the failed tuple unpacking raises a
ValueError that propagates out of the whole parse: here an input with a
malformed first block and a perfectly well-formed second block produces
an error and no records at all. -/
theorem c2_counterexample :
    parseStreams ["[STREAM]", "noequals", "[/STREAM]", "[STREAM]", "a=1", "[/STREAM]"] [] =
      Except.error PyErr.valueError := by
  rfl

/-- Claim C2, amended.  A completed block containing any body line with
no equals sign makes the whole parse fail with ValueError at the moment
the block record is built: nothing is skipped, no diagnostic is
produced, and no records are returned for the analysis. -/
theorem c2_amended (body : List String)
    (hbad : ∃ l ∈ body, '=' ∉ pyStripChars l.data)
    (hbody : ∀ l ∈ body, lineContains strOpen l = false ∧ lineContains strClose l = false) :
    parseStreams ("[STREAM]" :: body ++ ["[/STREAM]"]) [] = Except.error PyErr.valueError := by
  have hopen1 : scanStep ⟨false, [], []⟩ "[STREAM]" = Except.ok ⟨true, [], []⟩ := by
    simp [scanStep, show lineContains strOpen "[STREAM]" = true from rfl]
  have hclose : scanStep ⟨true, body, []⟩ "[/STREAM]" = Except.error PyErr.valueError := by
    simp [scanStep, show lineContains strOpen "[/STREAM]" = false from rfl,
      show lineContains strClose "[/STREAM]" = true from rfl,
      FFStream_init_error_of_bad body hbad]
  have hscan : scanBlock ⟨false, [], []⟩ ("[STREAM]" :: body ++ ["[/STREAM]"]) =
      Except.error PyErr.valueError := by
    simp only [List.cons_append, scanBlock, hopen1]
    rw [List.append_eq, scanBlock_append body ["[/STREAM]"] ⟨true, [], []⟩]
    rw [scanBlock_buffer body [] [] hbody]
    simp only [List.nil_append, scanBlock, hclose]
  simp [parseStreams, List.cons_append] at hscan ⊢
  rw [hscan]

/-- Witness for the amended claim C2 at a concrete block body. -/
theorem c2_amended_witness :
    parseStreams ("[STREAM]" :: ["noeq"] ++ ["[/STREAM]"]) [] = Except.error PyErr.valueError :=
  c2_amended ["noeq"] (by decide) (by decide)

theorem scanBlock_accum (lines : List String) : ∀ (b : Bool) (buf : List String)
    (s : List FFStream),
    scanBlock ⟨b, buf, s⟩ lines =
      match scanBlock ⟨b, buf, []⟩ lines with
      | Except.ok r => Except.ok ⟨r.stream, r.dataLines, s ++ r.streams⟩
      | Except.error e => Except.error e := by
  induction lines with
  | nil => intro b buf s; simp [scanBlock]
  | cons l rest ih =>
    intro b buf s
    by_cases hop : lineContains strOpen l = true
    · have h1 : scanStep ⟨b, buf, s⟩ l = Except.ok ⟨true, [], s⟩ := by simp [scanStep, hop]
      have h2 : scanStep ⟨b, buf, []⟩ l = Except.ok ⟨true, [], []⟩ := by simp [scanStep, hop]
      simp only [scanBlock, h1, h2]
      exact ih true [] s
    · have hop2 : lineContains strOpen l = false := by
        cases hl : lineContains strOpen l
        · rfl
        · exact absurd hl hop
      by_cases hcl : (lineContains strClose l && b) = true
      · have hb : b = true := (Bool.and_elim_right hcl)
        cases hinit : FFStream.init buf with
        | ok x =>
          have h1 : scanStep ⟨b, buf, s⟩ l = Except.ok ⟨false, buf, s ++ [x]⟩ := by
            simp [scanStep, hop2, hb, Bool.and_elim_left hcl, hinit]
          have h2 : scanStep ⟨b, buf, []⟩ l = Except.ok ⟨false, buf, [x]⟩ := by
            simp [scanStep, hop2, hb, Bool.and_elim_left hcl, hinit]
          simp only [scanBlock, h1, h2]
          rw [ih false buf (s ++ [x]), ih false buf [x]]
          cases scanBlock ⟨false, buf, []⟩ rest with
          | ok r => simp [List.append_assoc]
          | error e => rfl
        | error e =>
          have h1 : scanStep ⟨b, buf, s⟩ l = Except.error e := by
            simp [scanStep, hop2, hb, Bool.and_elim_left hcl, hinit]
          have h2 : scanStep ⟨b, buf, []⟩ l = Except.error e := by
            simp [scanStep, hop2, hb, Bool.and_elim_left hcl, hinit]
          simp only [scanBlock, h1, h2]
      · have hcl2 : (lineContains strClose l && b) = false := by
          cases hl : (lineContains strClose l && b)
          · rfl
          · exact absurd hl hcl
        by_cases hb : b = true
        · have hcl3 : lineContains strClose l = false := by
            rw [hb, Bool.and_true] at hcl2
            exact hcl2
          have h1 : scanStep ⟨b, buf, s⟩ l = Except.ok ⟨b, buf ++ [l], s⟩ := by
            simp [scanStep, hop2, hcl3, hb]
          have h2 : scanStep ⟨b, buf, []⟩ l = Except.ok ⟨b, buf ++ [l], []⟩ := by
            simp [scanStep, hop2, hcl3, hb]
          simp only [scanBlock, h1, h2]
          exact ih b (buf ++ [l]) s
        · have hb2 : b = false := by
            cases b
            · rfl
            · exact absurd rfl hb
          have h1 : scanStep ⟨b, buf, s⟩ l = Except.ok ⟨b, buf, s⟩ := by
            simp [scanStep, hop2, hcl2, hb2]
          have h2 : scanStep ⟨b, buf, []⟩ l = Except.ok ⟨b, buf, []⟩ := by
            simp [scanStep, hop2, hcl2, hb2]
          simp only [scanBlock, h1, h2]
          exact ih b buf s

theorem scanBlock_outside_buf (lines : List String) : ∀ (buf1 buf2 : List String)
    (s : List FFStream),
    (match scanBlock ⟨false, buf1, s⟩ lines with
     | Except.ok r => Except.ok r.streams
     | Except.error e => Except.error e) =
    (match scanBlock ⟨false, buf2, s⟩ lines with
     | Except.ok r => Except.ok r.streams
     | Except.error e => Except.error e) := by
  induction lines with
  | nil => intro buf1 buf2 s; simp [scanBlock]
  | cons l rest ih =>
    intro buf1 buf2 s
    by_cases hop : lineContains strOpen l = true
    · have h1 : scanStep ⟨false, buf1, s⟩ l = Except.ok ⟨true, [], s⟩ := by
        simp [scanStep, hop]
      have h2 : scanStep ⟨false, buf2, s⟩ l = Except.ok ⟨true, [], s⟩ := by
        simp [scanStep, hop]
      simp only [scanBlock, h1, h2]
    · have hop2 : lineContains strOpen l = false := by
        cases hl : lineContains strOpen l
        · rfl
        · exact absurd hl hop
      have h1 : scanStep ⟨false, buf1, s⟩ l = Except.ok ⟨false, buf1, s⟩ := by
        simp [scanStep, hop2]
      have h2 : scanStep ⟨false, buf2, s⟩ l = Except.ok ⟨false, buf2, s⟩ := by
        simp [scanStep, hop2]
      simp only [scanBlock, h1, h2]
      exact ih buf1 buf2 s

/-- Claim C4, counterexample.  The claim states that the blocks
attributed to the stderr channel depend only on the stderr lines.  In
the code the stream flag and the line buffer carry over from the stdout
loop into the stderr loop: with the same stderr lines, an empty stdout
yields no stderr block, while a stdout consisting of a lone opening
marker makes the stderr loop complete a block. -/
theorem c4_counterexample :
    stderrBlocks [] ["a=1", "[/STREAM]"] = Except.ok [] ∧
      stderrBlocks ["[STREAM]"] ["a=1", "[/STREAM]"] =
        Except.ok [FFStream.mk [("a", PyVal.str "1"), ("framerate", PyVal.pynone)]] ∧
      (Except.ok ([] : List FFStream) : Except PyErr (List FFStream)) ≠
        Except.ok [FFStream.mk [("a", PyVal.str "1"), ("framerate", PyVal.pynone)]] := by
  refine ⟨rfl, rfl, by decide⟩

/-- Claim C4, amended.  The scanner state carries over from the stdout
loop into the stderr loop, so stderr blocks are independent of stdout
only when the stdout scan ends outside a block: under that hypothesis
the stderr-attributed blocks equal those of a fresh scan of stderr
alone (so they depend only on the stderr lines), and the full list is
the stdout blocks followed by the stderr blocks in encounter order. -/
theorem c4_amended (out err : List String) (st1 : ScanState)
    (h1 : scanBlock ⟨false, [], []⟩ out = Except.ok st1)
    (hout : st1.stream = false) :
    parseStreams out err =
        (match scanBlock ⟨false, [], []⟩ err with
         | Except.ok st2 => Except.ok (st1.streams ++ st2.streams)
         | Except.error e => Except.error e) ∧
      stderrBlocks out err =
        (match scanBlock ⟨false, [], []⟩ err with
         | Except.ok st2 => Except.ok st2.streams
         | Except.error e => Except.error e) := by
  obtain ⟨b, buf, strs⟩ := st1
  have hb : b = false := hout
  subst hb
  have hacc := scanBlock_accum err false buf strs
  have hproj := scanBlock_outside_buf err buf [] []
  cases hA : scanBlock ⟨false, buf, []⟩ err with
  | ok rA =>
    cases hB : scanBlock ⟨false, [], []⟩ err with
    | ok rB =>
      rw [hA, hB] at hproj
      have hstreams : rA.streams = rB.streams := by
        simpa using hproj
      rw [hA] at hacc
      constructor
      · simp only [parseStreams, h1, hacc, hB]
        rw [hstreams]
      · simp only [stderrBlocks, h1, hacc, hB]
        rw [List.drop_left, hstreams]
    | error e =>
      rw [hA, hB] at hproj
      simp at hproj
  | error e =>
    cases hB : scanBlock ⟨false, [], []⟩ err with
    | ok rB =>
      rw [hA, hB] at hproj
      simp at hproj
    | error e2 =>
      rw [hA, hB] at hproj
      have he : e = e2 := by simpa using hproj
      rw [hA] at hacc
      subst he
      constructor
      · simp only [parseStreams, h1, hacc, hB]
      · simp only [stderrBlocks, h1, hacc, hB]

/-- Witness for the amended claim C4 at a concrete pair of channels. -/
theorem c4_amended_witness :
    parseStreams ["[STREAM]", "x=1", "[/STREAM]"] ["[STREAM]", "y=2", "[/STREAM]"] =
        Except.ok [FFStream.mk [("x", PyVal.str "1"), ("framerate", PyVal.pynone)],
          FFStream.mk [("y", PyVal.str "2"), ("framerate", PyVal.pynone)]] ∧
      stderrBlocks ["[STREAM]", "x=1", "[/STREAM]"] ["[STREAM]", "y=2", "[/STREAM]"] =
        Except.ok [FFStream.mk [("y", PyVal.str "2"), ("framerate", PyVal.pynone)]] := by
  have h := c4_amended ["[STREAM]", "x=1", "[/STREAM]"] ["[STREAM]", "y=2", "[/STREAM]"]
    ⟨false, ["x=1"], [FFStream.mk [("x", PyVal.str "1"), ("framerate", PyVal.pynone)]]⟩
    rfl rfl
  exact ⟨h.1.trans (by rfl), h.2.trans (by rfl)⟩

theorem scanBlock_no_close (tail : List String) : ∀ st : ScanState,
    (∀ l ∈ tail, lineContains strClose l = false) →
    ∃ b2 buf2, scanBlock st tail = Except.ok ⟨b2, buf2, st.streams⟩ := by
  induction tail with
  | nil => intro st _; exact ⟨st.stream, st.dataLines, rfl⟩
  | cons l rest ih =>
    intro st h
    have hcl : lineContains strClose l = false := h l (List.mem_cons_self l rest)
    have hrest : ∀ l2 ∈ rest, lineContains strClose l2 = false :=
      fun l2 hm => h l2 (List.mem_cons_of_mem l hm)
    by_cases hop : lineContains strOpen l = true
    · have hstep : scanStep st l = Except.ok ⟨true, [], st.streams⟩ := by
        simp [scanStep, hop]
      simp only [scanBlock, hstep]
      exact ih ⟨true, [], st.streams⟩ hrest
    · have hop2 : lineContains strOpen l = false := by
        cases hl : lineContains strOpen l
        · rfl
        · exact absurd hl hop
      by_cases hb : st.stream = true
      · have hstep : scanStep st l = Except.ok ⟨st.stream, st.dataLines ++ [l], st.streams⟩ := by
          simp [scanStep, hop2, hcl, hb]
        simp only [scanBlock, hstep]
        exact ih ⟨st.stream, st.dataLines ++ [l], st.streams⟩ hrest
      · have hb2 : st.stream = false := by
          cases hs : st.stream
          · rfl
          · exact absurd hs hb
        have hstep : scanStep st l = Except.ok st := by
          simp [scanStep, hop2, hcl, hb2]
        simp only [scanBlock, hstep]
        exact ih st hrest

/-- Claim C5, counterexample.  The claim states that an input line
sequence ending while the parser is inside a block yields zero records
from that block and that the partial buffer is dropped.  In the code
the buffer and the flag survive into the stderr loop: here stdout ends
inside a block, yet a closing marker at the start of stderr emits a
record built from the stdout partial buffer, so the buffer was neither
dropped nor recordless, and no diagnostic of any kind exists. -/
theorem c5_counterexample :
    parseStreams ["[STREAM]", "a=1"] ["[/STREAM]"] =
        Except.ok [FFStream.mk [("a", PyVal.str "1"), ("framerate", PyVal.pynone)]] ∧
      (Except.ok [FFStream.mk [("a", PyVal.str "1"), ("framerate", PyVal.pynone)]] :
          Except PyErr (List FFStream)) ≠
        Except.ok ([] : List FFStream) := by
  refine ⟨rfl, by decide⟩

/-- Claim C5, amended.  A block left open at the end of the whole input
contributes nothing: when no line after the unmatched opening marker
contains the closing marker, the parse returns exactly what it returns
on the input truncated right after that opening marker — the partial
buffer is discarded, no record is emitted from it, no error is raised
by it, and no diagnostic is produced (none exists in the code).  An
unterminated stdout block, by contrast, carries over into the stderr
scan (see the counterexample). -/
theorem c5_amended (stdoutLines pre tail : List String)
    (h : ∀ l ∈ tail, lineContains strClose l = false) :
    parseStreams stdoutLines (pre ++ "[STREAM]" :: tail) =
      parseStreams stdoutLines (pre ++ ["[STREAM]"]) := by
  cases h0 : scanBlock ⟨false, [], []⟩ stdoutLines with
  | error e => simp only [parseStreams, h0]
  | ok st1 =>
    simp only [parseStreams, h0]
    rw [scanBlock_append pre ("[STREAM]" :: tail) st1,
      scanBlock_append pre ["[STREAM]"] st1]
    cases hp : scanBlock st1 pre with
    | error e => rfl
    | ok stp =>
      have hopenstep : scanStep stp "[STREAM]" = Except.ok ⟨true, [], stp.streams⟩ := by
        simp [scanStep, show lineContains strOpen "[STREAM]" = true from rfl]
      simp only [scanBlock, hopenstep]
      obtain ⟨b2, buf2, hscan⟩ := scanBlock_no_close tail ⟨true, [], stp.streams⟩ h
      rw [hscan]

/-- Witness for the amended claim C5 at a concrete input. -/
theorem c5_amended_witness :
    parseStreams [] (["pre=1"] ++ "[STREAM]" :: ["x=9", "junk"]) =
      parseStreams [] (["pre=1"] ++ ["[STREAM]"]) :=
  c5_amended [] ["pre=1"] ["x=9", "junk"] (by decide)

theorem digit_not_ws (c : Char) (h : c.isDigit = true) : isPyWhitespace c = false := by
  have h1 : ¬ c = ' ' := fun hc => absurd h (by rw [hc]; decide)
  have h2 : ¬ c = '\t' := fun hc => absurd h (by rw [hc]; decide)
  have h3 : ¬ c = '\n' := fun hc => absurd h (by rw [hc]; decide)
  have h4 : ¬ c = '\r' := fun hc => absurd h (by rw [hc]; decide)
  have h5 : ¬ c = '\x0b' := fun hc => absurd h (by rw [hc]; decide)
  have h6 : ¬ c = '\x0c' := fun hc => absurd h (by rw [hc]; decide)
  simp [isPyWhitespace, h1, h2, h3, h4, h5, h6]

theorem digit_ne_eqsign (c : Char) (h : c.isDigit = true) : ¬ c = '=' :=
  fun hc => absurd h (by rw [hc]; decide)

theorem dropWhile_all_false (p : Char → Bool) (cs : List Char)
    (h : ∀ c ∈ cs, p c = false) : cs.dropWhile p = cs := by
  cases cs with
  | nil => rfl
  | cons c t => simp [List.dropWhile_cons, h c (List.mem_cons_self c t)]

theorem pyStrip_all_non_ws (cs : List Char) (h : ∀ c ∈ cs, isPyWhitespace c = false) :
    pyStripChars cs = cs := by
  unfold pyStripChars
  rw [dropWhile_all_false isPyWhitespace cs h,
    dropWhile_all_false isPyWhitespace cs.reverse (fun c hc => h c (List.mem_reverse.1 hc)),
    List.reverse_reverse]

theorem containerInit_ok (digits : List Char) (h : ∀ c ∈ digits, c.isDigit = true) :
    ∃ c2, FFContainer.init ["container_bitrate=" ++ String.mk digits] = Except.ok c2 := by
  have hmkdata : (String.mk digits).data = digits := rfl
  have h18 : ("container_bitrate=").data = "container_bitrate".data ++ ['='] := rfl
  have hdata : ("container_bitrate=" ++ String.mk digits).data =
      "container_bitrate".data ++ '=' :: digits := by
    rw [strDataAppend, h18, hmkdata, List.append_assoc, List.singleton_append]
  have hlit : ∀ c ∈ "container_bitrate".data, isPyWhitespace c = false := by decide
  have hstrip : pyStripChars ("container_bitrate".data ++ '=' :: digits) =
      "container_bitrate".data ++ '=' :: digits := by
    apply pyStrip_all_non_ws
    intro c hc
    rcases List.mem_append.1 hc with h1 | h1
    · exact hlit c h1
    · rcases List.mem_cons.1 h1 with h2 | h2
      · subst h2
        decide
      · exact digit_not_ws c (h c h2)
  have hsplit : pySplit '=' ("container_bitrate".data ++ '=' :: digits) =
      ["container_bitrate".data, digits] := by
    rw [pySplit_append '=' "container_bitrate".data digits (by decide),
      pySplit_no_sep '=' digits (fun hc => digit_ne_eqsign '=' (h '=' hc) rfl)]
  have hstep : containerInitStep [] ("container_bitrate=" ++ String.mk digits) =
      Except.ok (dictUpdate [] (String.mk "container_bitrate".data)
        (PyVal.str (String.mk digits))) := by
    unfold containerInitStep
    rw [hdata, hstrip, hsplit]
  refine ⟨⟨dictUpdate [] (String.mk "container_bitrate".data) (PyVal.str (String.mk digits))⟩, ?_⟩
  simp [FFContainer.init, containerInitLoop, hstep]

theorem containerLoop_spec (lines : List String) : ∀ acc : List FFContainer,
    (∀ l ∈ lines, streamReSearch l.data = true → (bitReSearch l.data).isSome = true) →
    ∃ cs, containerLoop acc lines = Except.ok cs ∧
      cs.length = acc.length + lines.countP (fun l => streamReSearch l.data) := by
  induction lines with
  | nil => intro acc _; exact ⟨acc, rfl, by simp⟩
  | cons l rest ih =>
    intro acc h
    have hrest : ∀ l2 ∈ rest, streamReSearch l2.data = true → (bitReSearch l2.data).isSome = true :=
      fun l2 hm => h l2 (List.mem_cons_of_mem l hm)
    by_cases hm : streamReSearch l.data = true
    · have hbit : (bitReSearch l.data).isSome = true := h l (List.mem_cons_self l rest) hm
      obtain ⟨g, hg⟩ := Option.isSome_iff_exists.1 hbit
      have hdigits : ∀ c ∈ g.filter Char.isDigit, c.isDigit = true :=
        fun c hc => (List.mem_filter.1 hc).2
      obtain ⟨c2, hinit⟩ := containerInit_ok (g.filter Char.isDigit) hdigits
      have hstep : containerStep acc l = Except.ok (acc ++ [c2]) := by
        simp [containerStep, hm, hg, hinit]
      simp only [containerLoop, hstep]
      obtain ⟨cs, hloop, hlen⟩ := ih (acc ++ [c2]) hrest
      refine ⟨cs, hloop, ?_⟩
      rw [hlen]
      simp [List.countP_cons, hm]
      omega
    · have hm2 : streamReSearch l.data = false := by
        cases hs : streamReSearch l.data
        · rfl
        · exact absurd hs hm
      have hstep : containerStep acc l = Except.ok acc := by
        simp [containerStep, hm2]
      simp only [containerLoop, hstep]
      obtain ⟨cs, hloop, hlen⟩ := ih acc hrest
      refine ⟨cs, hloop, ?_⟩
      rw [hlen]
      simp [List.countP_cons, hm2]

theorem containerLoop_nomatch (lines : List String) : ∀ acc : List FFContainer,
    (∀ l ∈ lines, streamReSearch l.data = false) →
    containerLoop acc lines = Except.ok acc := by
  induction lines with
  | nil => intro acc _; rfl
  | cons l rest ih =>
    intro acc h
    have hstep : containerStep acc l = Except.ok acc := by
      simp [containerStep, h l (List.mem_cons_self l rest)]
    simp only [containerLoop, hstep]
    exact ih acc (fun l2 hm => h l2 (List.mem_cons_of_mem l hm))

/-- Claim C3, counterexample.  The claim states that only the first
diagnostic line matching the duration pattern yields a ContainerRecord
and that further matches are ignored.  In the code every matching line
appends one record: two matching lines produce two records, and the
result is not the single-record list the claim predicts. -/
theorem c3_counterexample :
    containerScan ["Duration: 00:01.0, bitrate: 128 kb/s",
        "Duration: 00:02.0, bitrate: 256 kb/s"] =
      Except.ok [FFContainer.mk [("container_bitrate", PyVal.str "128")],
        FFContainer.mk [("container_bitrate", PyVal.str "256")]] ∧
    ¬ containerScan ["Duration: 00:01.0, bitrate: 128 kb/s",
        "Duration: 00:02.0, bitrate: 256 kb/s"] =
      Except.ok [FFContainer.mk [("container_bitrate", PyVal.str "128")]] := by
  refine ⟨rfl, by decide⟩

/-- Claim C3, amended.  The container scan produces one ContainerRecord
per diagnostic line matching the duration pattern, in line order —
not only for the first match — provided every matching line also
contains a bit-rate token (otherwise the scan raises AttributeError);
and when no line matches the duration pattern, it produces no record
and raises no error. -/
theorem c3_amended (lines : List String) :
    ((∀ l ∈ lines, streamReSearch l.data = true → (bitReSearch l.data).isSome = true) →
      ∃ cs, containerScan lines = Except.ok cs ∧
        cs.length = lines.countP (fun l => streamReSearch l.data))
  ∧ ((∀ l ∈ lines, streamReSearch l.data = false) → containerScan lines = Except.ok []) := by
  constructor
  · intro h
    obtain ⟨cs, h1, h2⟩ := containerLoop_spec lines [] h
    exact ⟨cs, h1, by simpa using h2⟩
  · intro h
    exact containerLoop_nomatch lines [] h

/-- Witness for the amended claim C3 at concrete inputs. -/
theorem c3_amended_witness :
    (∃ cs, containerScan ["Duration: 00:01.0, bitrate: 128 kb/s"] = Except.ok cs ∧
        cs.length = (["Duration: 00:01.0, bitrate: 128 kb/s"].countP
          (fun l => streamReSearch l.data))) ∧
      containerScan ["no duration here"] = Except.ok [] :=
  And.intro
    ((c3_amended ["Duration: 00:01.0, bitrate: 128 kb/s"]).1 (by decide))
    ((c3_amended ["no duration here"]).2 (by decide))

/-- Claim C6, confirmed.  On a diagnostic channel containing the line
Duration: 00:01:02.34, start: 0.000000, bitrate: 128 kb/s, the
recoverer yields one ContainerRecord whose container_bitrate accessor
returns the integer 128 — the raw numeral of the announcement with the
kilobit unit suffix stripped, the convention applied by the code to
every such input. -/
theorem c6_container_bitrate :
    containerScan ["Duration: 00:01:02.34, start: 0.000000, bitrate: 128 kb/s"] =
        Except.ok [FFContainer.mk [("container_bitrate", PyVal.str "128")]] ∧
      (FFContainer.mk [("container_bitrate", PyVal.str "128")]).container_bitrate =
        Except.ok 128 := by
  refine ⟨rfl, rfl⟩

/-- Claim C7, confirmed.  bit_rate returns the parsed integer exactly
when the raw bit_rate field is present and parses as an integer; it
fails with the FFProbeError carrying the message of the source (the
MalformedField of the specification) both when the field is absent and
when it is a non-integer string such as n/a; and every successful
result comes from an actual stored value, never from a default zero. -/
theorem c7_bit_rate (s : FFStream) :
    (∀ v : String, ∀ n : Int, s.getOpt "bit_rate" = some (PyVal.str v) → pyInt v = some n →
      s.bit_rate = Except.ok n)
  ∧ (∀ v : String, s.getOpt "bit_rate" = some (PyVal.str v) → pyInt v = none →
      s.bit_rate = Except.error (PyErr.ffprobeError "None integer bit_rate"))
  ∧ (s.getOpt "bit_rate" = none →
      s.bit_rate = Except.error (PyErr.ffprobeError "None integer bit_rate"))
  ∧ (∀ n : Int, s.bit_rate = Except.ok n →
      ∃ v, s.getOpt "bit_rate" = some v ∧ pyIntOfPyVal v = Except.ok n)
  ∧ pyInt "n/a" = none ∧ pyInt "" = none := by
  refine ⟨?_, ?_, ?_, ?_, rfl, rfl⟩
  · intro v n hget hint
    simp [FFStream.bit_rate, FFStream.getDefaultEmpty, hget, pyIntOfPyVal, hint]
  · intro v hget hint
    simp [FFStream.bit_rate, FFStream.getDefaultEmpty, hget, pyIntOfPyVal, hint]
  · intro hget
    simp [FFStream.bit_rate, FFStream.getDefaultEmpty, hget, pyIntOfPyVal,
      show pyInt "" = none from rfl]
  · intro n hok
    cases h : s.getOpt "bit_rate" with
    | none =>
      simp [FFStream.bit_rate, FFStream.getDefaultEmpty, h, pyIntOfPyVal,
        show pyInt "" = none from rfl] at hok
    | some v =>
      cases hv : pyIntOfPyVal v with
      | ok m =>
        simp [FFStream.bit_rate, FFStream.getDefaultEmpty, h, hv] at hok
        exact ⟨v, rfl, by rw [hv, hok]⟩
      | error e =>
        cases e <;> simp [FFStream.bit_rate, FFStream.getDefaultEmpty, h, hv] at hok

/-- Witness for claim C7 at concrete records. -/
theorem c7_bit_rate_witness :
    (FFStream.mk [("bit_rate", PyVal.str "64")]).bit_rate = Except.ok 64 ∧
      (FFStream.mk [("bit_rate", PyVal.str "n/a")]).bit_rate =
        Except.error (PyErr.ffprobeError "None integer bit_rate") ∧
      (FFStream.mk []).bit_rate =
        Except.error (PyErr.ffprobeError "None integer bit_rate") :=
  And.intro ((c7_bit_rate (FFStream.mk [("bit_rate", PyVal.str "64")])).1 "64" 64 rfl rfl)
    (And.intro
      ((c7_bit_rate (FFStream.mk [("bit_rate", PyVal.str "n/a")])).2.1 "n/a" rfl rfl)
      ((c7_bit_rate (FFStream.mk [])).2.2.1 rfl))

/-- Claim C10, confirmed.  For a record whose codec_type is video or
audio, frames and duration_seconds fail with the FFProbeError of the
source (the MalformedField of the specification) when the raw nb_frames
respectively duration field is absent, instead of returning zero; the
zero defaults apply exactly to records of every other kind. -/
theorem c10_frames_duration (s : FFStream) :
    ((s.is_video || s.is_audio) = true → s.getOpt "nb_frames" = none →
      s.frames = Except.error (PyErr.ffprobeError "None integer frame count"))
  ∧ ((s.is_video || s.is_audio) = true → s.getOpt "duration" = none →
      s.duration_seconds = Except.error (PyErr.ffprobeError "None numeric duration"))
  ∧ ((s.is_video || s.is_audio) = false →
      s.frames = Except.ok 0 ∧ s.duration_seconds = Except.ok 0) := by
  refine ⟨?_, ?_, ?_⟩
  · intro hk hget
    simp [FFStream.frames, hk, FFStream.getDefaultEmpty, hget, pyIntOfPyVal,
      show pyInt "" = none from rfl]
  · intro hk hget
    simp [FFStream.duration_seconds, hk, FFStream.getDefaultEmpty, hget, pyFloatOfPyVal,
      show pyFloat "" = none from rfl]
  · intro hk
    exact ⟨by simp [FFStream.frames, hk], by simp [FFStream.duration_seconds, hk]⟩

/-- Witness for claim C10 at concrete records. -/
theorem c10_frames_duration_witness :
    (FFStream.mk [("codec_type", PyVal.str "video")]).frames =
        Except.error (PyErr.ffprobeError "None integer frame count") ∧
      (FFStream.mk [("codec_type", PyVal.str "video")]).duration_seconds =
        Except.error (PyErr.ffprobeError "None numeric duration") ∧
      (FFStream.mk [("codec_type", PyVal.str "subtitle"), ("nb_frames", PyVal.str "bad")]).frames =
          Except.ok 0 ∧
        (FFStream.mk [("codec_type", PyVal.str "subtitle"),
          ("nb_frames", PyVal.str "bad")]).duration_seconds = Except.ok 0 :=
  And.intro
    ((c10_frames_duration (FFStream.mk [("codec_type", PyVal.str "video")])).1 rfl rfl)
    (And.intro
      ((c10_frames_duration (FFStream.mk [("codec_type", PyVal.str "video")])).2.1 rfl rfl)
      ((c10_frames_duration (FFStream.mk [("codec_type", PyVal.str "subtitle"),
        ("nb_frames", PyVal.str "bad")])).2.2 rfl))

theorem slashData (n v : String) : (n ++ "/" ++ v).data = n.data ++ '/' :: v.data := by
  simp [strDataAppend, show "/".data = ['/'] from rfl]

theorem ratFloor_eq_intFloor (q : Rat) : q.floor = ⌊q⌋ := by
  rw [Rat.floor_def', Rat.floor_def]

theorem pyRound_24000_1001 : pyRound (((24000 : Int) : Rat) / ((1001 : Int) : Rat)) = 24 := by
  have hq : ((24000 : Int) : Rat) / ((1001 : Int) : Rat) = (24000 : Rat) / 1001 := by
    norm_num
  have hfl : ((24000 : Rat) / 1001).floor = 23 := by
    rw [ratFloor_eq_intFloor, Int.floor_eq_iff]
    constructor
    · norm_num
    · norm_num
  simp only [pyRound, hq, hfl]
  rw [if_neg (by push_cast; norm_num), if_pos (by push_cast; norm_num)]
  decide

theorem deriveFramerate_24000_1001 : deriveFramerate "24000/1001" = some 24 := by
  have hsplit : pySplit '/' "24000/1001".data = ["24000".data, "1001".data] := by decide
  have hmap : mapIntParse ["24000".data, "1001".data] = some [24000, 1001] := by decide
  have hred : reduceTruediv ((24000 : Int) : Rat) [1001] =
      some (((24000 : Int) : Rat) / ((1001 : Int) : Rat)) := by
    simp [reduceTruediv]
  simp only [deriveFramerate, hsplit, hmap, hred, pyRound_24000_1001]

/-- Claim C8, confirmed.  The framerate derivation parses both sides of
a numerator/denominator raw value as Python integers, divides and
rounds (Python round, half to even, here on the exact rational): the
value 24000/1001 yields 24; a zero denominator, an empty string, or a
side that fails to parse yields the explicit absent value None rather
than an error; and at record construction the derived value is stored
under the framerate key. -/
theorem c8_framerate :
    (∀ sa sb : String, ∀ a b : Int, pyInt sa = some a → pyInt sb = some b →
      '/' ∉ sa.data → '/' ∉ sb.data → ¬ b = 0 →
      deriveFramerate (sa ++ "/" ++ sb) = some (pyRound ((a : Rat) / (b : Rat))))
  ∧ (∀ sa sb : String, ∀ a : Int, pyInt sa = some a → pyInt sb = some 0 →
      '/' ∉ sa.data → '/' ∉ sb.data →
      deriveFramerate (sa ++ "/" ++ sb) = none)
  ∧ (∀ sa sb : String, pyInt sa = none → '/' ∉ sa.data → '/' ∉ sb.data →
      deriveFramerate (sa ++ "/" ++ sb) = none)
  ∧ (∀ sa sb : String, pyInt sb = none → '/' ∉ sa.data → '/' ∉ sb.data →
      deriveFramerate (sa ++ "/" ++ sb) = none)
  ∧ deriveFramerate "24000/1001" = some 24
  ∧ deriveFramerate "30/0" = none
  ∧ deriveFramerate "" = none
  ∧ Except.map (fun s => FFStream.getOpt s "framerate")
      (FFStream.init ["avg_frame_rate=24000/1001"]) = Except.ok (some (PyVal.int 24)) := by
  refine ⟨?_, ?_, ?_, ?_, deriveFramerate_24000_1001, by decide, by decide, ?_⟩
  · intro sa sb a b ha hb hsa hsb hbz
    have ha2 : pyIntOfChars sa.data = some a := ha
    have hb2 : pyIntOfChars sb.data = some b := hb
    unfold deriveFramerate
    rw [slashData, pySplit_append '/' sa.data sb.data hsa, pySplit_no_sep '/' sb.data hsb]
    simp [mapIntParse, ha2, hb2, reduceTruediv, hbz]
  · intro sa sb a ha hb hsa hsb
    have ha2 : pyIntOfChars sa.data = some a := ha
    have hb2 : pyIntOfChars sb.data = some 0 := hb
    unfold deriveFramerate
    rw [slashData, pySplit_append '/' sa.data sb.data hsa, pySplit_no_sep '/' sb.data hsb]
    simp [mapIntParse, ha2, hb2, reduceTruediv]
  · intro sa sb ha hsa hsb
    have ha2 : pyIntOfChars sa.data = none := ha
    unfold deriveFramerate
    rw [slashData, pySplit_append '/' sa.data sb.data hsa, pySplit_no_sep '/' sb.data hsb]
    simp [mapIntParse, ha2]
  · intro sa sb hb hsa hsb
    have hb2 : pyIntOfChars sb.data = none := hb
    unfold deriveFramerate
    rw [slashData, pySplit_append '/' sa.data sb.data hsa, pySplit_no_sep '/' sb.data hsb]
    cases hA : pyIntOfChars sa.data <;> simp [mapIntParse, hA, hb2]
  · have hsplit : pySplit '=' (pyStripChars "avg_frame_rate=24000/1001".data) =
        "avg_frame_rate".data :: "24000/1001".data :: [] := by decide
    have hstep := initStep_good [] "avg_frame_rate=24000/1001" "avg_frame_rate"
      "24000/1001" [] hsplit
    have havg : avgStrOf (dictUpdate [] "avg_frame_rate" (PyVal.str "24000/1001")) =
        "24000/1001" := by decide
    have hupd : updateFramerate (dictUpdate [] "avg_frame_rate" (PyVal.str "24000/1001")) =
        [("avg_frame_rate", PyVal.str "24000/1001"), ("framerate", PyVal.int 24)] := by
      simp only [updateFramerate, havg, deriveFramerate_24000_1001]
      decide
    have hinit : FFStream.init ["avg_frame_rate=24000/1001"] =
        Except.ok ⟨[("avg_frame_rate", PyVal.str "24000/1001"),
          ("framerate", PyVal.int 24)]⟩ := by
      simp [FFStream.init, initLoop, hstep, hupd]
    rw [hinit]
    decide

/-- Witness for claim C8 at concrete raw values. -/
theorem c8_framerate_witness :
    deriveFramerate ("24000" ++ "/" ++ "1001") =
        some (pyRound (((24000 : Int) : Rat) / ((1001 : Int) : Rat))) ∧
      deriveFramerate ("30" ++ "/" ++ "0") = none ∧
      deriveFramerate ("x" ++ "/" ++ "2") = none ∧
      deriveFramerate ("3" ++ "/" ++ "y") = none :=
  ⟨c8_framerate.1 "24000" "1001" 24000 1001 rfl rfl (by decide) (by decide) (by decide),
    c8_framerate.2.1 "30" "0" 30 rfl rfl (by decide) (by decide),
    c8_framerate.2.2.1 "x" "2" rfl (by decide) (by decide),
    c8_framerate.2.2.2.1 "3" "y" rfl (by decide) (by decide)⟩

theorem classifyLoop_filters (streams : List FFStream) : ∀ p : StreamPartitions,
    classifyLoop p streams = StreamPartitions.mk
      (p.video ++ streams.filter (fun t => !t.is_audio && t.is_video))
      (p.audio ++ streams.filter (fun t => t.is_audio))
      (p.subtitle ++ streams.filter (fun t => !t.is_audio && !t.is_video && t.is_subtitle))
      (p.attachment ++ streams.filter
        (fun t => !t.is_audio && !t.is_video && !t.is_subtitle && t.is_attachment)) := by
  induction streams with
  | nil => intro p; simp [classifyLoop]
  | cons s rest ih =>
    intro p
    simp only [classifyLoop]
    rw [ih (classifyStep p s)]
    cases ha : s.is_audio with
    | true => simp [classifyStep, ha, List.filter_cons]
    | false =>
      cases hv : s.is_video with
      | true => simp [classifyStep, ha, hv, List.filter_cons]
      | false =>
        cases hs2 : s.is_subtitle with
        | true => simp [classifyStep, ha, hv, hs2, List.filter_cons]
        | false =>
          cases hat : s.is_attachment with
          | true => simp [classifyStep, ha, hv, hs2, hat, List.filter_cons]
          | false => simp [classifyStep, ha, hv, hs2, hat, List.filter_cons]

/-- Claim C9, confirmed.  Every produced record is a member of the full
streams list by construction (the partitions draw from that list), each
of the four per-kind collections contains a record of the list exactly
when its raw codec_type equals the corresponding literal, a record is
in exactly one of the four collections precisely when its codec_type is
one of the four literals, and a record with any other or absent
codec_type is in none of them. -/
theorem c9_partition (streams : List FFStream) (s : FFStream) (h : s ∈ streams) :
    (s ∈ (classifyAll streams).video ↔ s.getOpt "codec_type" = some (PyVal.str "video"))
  ∧ (s ∈ (classifyAll streams).audio ↔ s.getOpt "codec_type" = some (PyVal.str "audio"))
  ∧ (s ∈ (classifyAll streams).subtitle ↔ s.getOpt "codec_type" = some (PyVal.str "subtitle"))
  ∧ (s ∈ (classifyAll streams).attachment ↔
      s.getOpt "codec_type" = some (PyVal.str "attachment"))
  ∧ (membershipCount s (classifyAll streams) = 1 ↔
      (s.getOpt "codec_type" = some (PyVal.str "video") ∨
        s.getOpt "codec_type" = some (PyVal.str "audio") ∨
        s.getOpt "codec_type" = some (PyVal.str "subtitle") ∨
        s.getOpt "codec_type" = some (PyVal.str "attachment")))
  ∧ (¬ (s.getOpt "codec_type" = some (PyVal.str "video") ∨
        s.getOpt "codec_type" = some (PyVal.str "audio") ∨
        s.getOpt "codec_type" = some (PyVal.str "subtitle") ∨
        s.getOpt "codec_type" = some (PyVal.str "attachment")) →
      membershipCount s (classifyAll streams) = 0) := by
  have hcls : classifyAll streams = StreamPartitions.mk
      (streams.filter (fun t => !t.is_audio && t.is_video))
      (streams.filter (fun t => t.is_audio))
      (streams.filter (fun t => !t.is_audio && !t.is_video && t.is_subtitle))
      (streams.filter
        (fun t => !t.is_audio && !t.is_video && !t.is_subtitle && t.is_attachment)) := by
    unfold classifyAll
    rw [classifyLoop_filters]
    simp
  have hmV : s ∈ (classifyAll streams).video ↔ (!s.is_audio && s.is_video) = true := by
    rw [hcls]
    simp [List.mem_filter, h]
  have hmA : s ∈ (classifyAll streams).audio ↔ s.is_audio = true := by
    rw [hcls]
    simp [List.mem_filter, h]
  have hmS : s ∈ (classifyAll streams).subtitle ↔
      (!s.is_audio && !s.is_video && s.is_subtitle) = true := by
    rw [hcls]
    simp [List.mem_filter, h]
  have hmT : s ∈ (classifyAll streams).attachment ↔
      (!s.is_audio && !s.is_video && !s.is_subtitle && s.is_attachment) = true := by
    rw [hcls]
    simp [List.mem_filter, h]
  have hAiff : s.is_audio = true ↔ s.getOpt "codec_type" = some (PyVal.str "audio") := by
    simp [FFStream.is_audio]
  have hViff : s.is_video = true ↔ s.getOpt "codec_type" = some (PyVal.str "video") := by
    simp [FFStream.is_video]
  have hSiff : s.is_subtitle = true ↔ s.getOpt "codec_type" = some (PyVal.str "subtitle") := by
    simp [FFStream.is_subtitle]
  have hTiff : s.is_attachment = true ↔
      s.getOpt "codec_type" = some (PyVal.str "attachment") := by
    simp [FFStream.is_attachment]
  have hcount : membershipCount s (classifyAll streams) =
      (if (!s.is_audio && s.is_video) = true then 1 else 0) +
        (if s.is_audio = true then 1 else 0) +
        (if (!s.is_audio && !s.is_video && s.is_subtitle) = true then 1 else 0) +
        (if (!s.is_audio && !s.is_video && !s.is_subtitle && s.is_attachment) = true
          then 1 else 0) := by
    simp only [membershipCount, hmV, hmA, hmS, hmT]
  refine ⟨?_, ?_, ?_, ?_, ?_, ?_⟩
  · rw [hmV]
    constructor
    · intro hb
      exact hViff.1 (Bool.and_elim_right hb)
    · intro hg
      have hv := hViff.2 hg
      have ha : s.is_audio = false := by simp [FFStream.is_audio, hg]
      simp [ha, hv]
  · rw [hmA]
    exact hAiff
  · rw [hmS]
    constructor
    · intro hb
      exact hSiff.1 (Bool.and_elim_right hb)
    · intro hg
      have hs2 := hSiff.2 hg
      have ha : s.is_audio = false := by simp [FFStream.is_audio, hg]
      have hv : s.is_video = false := by simp [FFStream.is_video, hg]
      simp [ha, hv, hs2]
  · rw [hmT]
    constructor
    · intro hb
      exact hTiff.1 (Bool.and_elim_right hb)
    · intro hg
      have hat := hTiff.2 hg
      have ha : s.is_audio = false := by simp [FFStream.is_audio, hg]
      have hv : s.is_video = false := by simp [FFStream.is_video, hg]
      have hs2 : s.is_subtitle = false := by simp [FFStream.is_subtitle, hg]
      simp [ha, hv, hs2, hat]
  · rw [hcount, ← hViff, ← hAiff, ← hSiff, ← hTiff]
    cases ha : s.is_audio <;> cases hv : s.is_video <;> cases hs2 : s.is_subtitle <;>
      cases hat : s.is_attachment <;> simp [ha, hv, hs2, hat]
  · intro hnd
    rw [hcount]
    push_neg at hnd
    have ha : s.is_audio = false := decide_eq_false hnd.2.1
    have hv : s.is_video = false := decide_eq_false hnd.1
    have hs2 : s.is_subtitle = false := decide_eq_false hnd.2.2.1
    have hat : s.is_attachment = false := decide_eq_false hnd.2.2.2
    simp [ha, hv, hs2, hat]

/-- Witness for claim C9 at a concrete streams list. -/
theorem c9_partition_witness :
    (FFStream.mk [("codec_type", PyVal.str "audio")] ∈
        (classifyAll [FFStream.mk [("codec_type", PyVal.str "audio")],
          FFStream.mk [("codec_type", PyVal.str "data")]]).audio ↔
      (FFStream.mk [("codec_type", PyVal.str "audio")]).getOpt "codec_type" =
        some (PyVal.str "audio")) ∧
    (¬ ((FFStream.mk [("codec_type", PyVal.str "data")]).getOpt "codec_type" =
          some (PyVal.str "video") ∨
        (FFStream.mk [("codec_type", PyVal.str "data")]).getOpt "codec_type" =
          some (PyVal.str "audio") ∨
        (FFStream.mk [("codec_type", PyVal.str "data")]).getOpt "codec_type" =
          some (PyVal.str "subtitle") ∨
        (FFStream.mk [("codec_type", PyVal.str "data")]).getOpt "codec_type" =
          some (PyVal.str "attachment")) →
      membershipCount (FFStream.mk [("codec_type", PyVal.str "data")])
        (classifyAll [FFStream.mk [("codec_type", PyVal.str "audio")],
          FFStream.mk [("codec_type", PyVal.str "data")]]) = 0) :=
  And.intro
    ((c9_partition [FFStream.mk [("codec_type", PyVal.str "audio")],
      FFStream.mk [("codec_type", PyVal.str "data")]]
      (FFStream.mk [("codec_type", PyVal.str "audio")]) (by decide)).2.1)
    ((c9_partition [FFStream.mk [("codec_type", PyVal.str "audio")],
      FFStream.mk [("codec_type", PyVal.str "data")]]
      (FFStream.mk [("codec_type", PyVal.str "data")]) (by decide)).2.2.2.2.2)
